import Mathlib

/-!
Verification of `src/video_creator.py`: a batch generator of zoom-effect
slideshow videos.  The Python source is shallowly embedded below:

* `calculate_possible_combinations` — lines 7-12 (binomial count via
  `math.factorial`, `ValueError` for a negative argument modelled by
  `pyFactorial` returning `none`);
* `process_frame` — lines 16-31 (the zoom transform; `int()` truncation is
  `pyInt`, Python `//` on ints is `Int.fdiv`, numpy's clamping slice is
  `pySliceList`; the PIL resize service of `resize_frame`, lines 93-99, is an
  opaque external collaborator and is passed in as a function parameter);
* `create_video_with_zoom` — lines 34-91 (the assembly pipeline, embedded as
  an event trace recording resource acquisition/release plus a result; the
  external audio/encode services are parametrised by `audioDuration` and
  `encodeOk`);
* `create_multiple_videos` — lines 101-150 (the batch controller; the outputs
  of `random.sample` are modelled as an input stream `draws`, and the
  per-iteration assembly as an oracle `encode`, so that the loop's control
  logic is exactly the source's).

Image identifiers are abstracted from filename strings to `Nat` (only their
decidable equality and total order are used by the source).
-/

namespace VideoCreator

/-- Python's `math.factorial`: raises `ValueError` (here `none`) on a
negative argument, otherwise the factorial. -/
def pyFactorial (n : Int) : Option Nat :=
  if n < 0 then none else some (Nat.factorial n.toNat)

/-- `calculate_possible_combinations(n, r)` (src lines 7-12):
`math.factorial(n) // (math.factorial(r) * math.factorial(n - r))`, with the
`except ValueError: return 0` branch taken when any factorial argument is
negative. -/
def calculate_possible_combinations (n : Int) (r : Int) : Nat :=
  match pyFactorial n, pyFactorial r, pyFactorial (n - r) with
  | some a, some b, some c => a / (b * c)
  | _, _, _ => 0

/-- The arguments on which `calculate_possible_combinations` takes raw
factorials, in the source's evaluation order: `math.factorial(n)`,
`math.factorial(r)`, `math.factorial(n - r)` (src line 10). -/
def calculate_possible_combinations_factorial_args (n : Int) (r : Int) : List Int :=
  [n, r, n - r]

/-- Python `int()` applied to a non-integer number: truncation toward zero. -/
def pyInt (q : ℚ) : Int := if 0 ≤ q then ⌊q⌋ else -⌊-q⌋

/-- Python/numpy axis slicing `l[a:b]` (step 1): a negative index counts from
the end and out-of-range bounds clamp to the ends. -/
def pySliceList {α : Type} (l : List α) (a b : Int) : List α :=
  let n : Int := l.length
  let s : Int := if a < 0 then max (n + a) 0 else min a n
  let e : Int := if b < 0 then max (n + b) 0 else min b n
  (l.take e.toNat).drop s.toNat

/-- `scale = 1 + (0.2 * t)` (src line 18). -/
def scaleAt (t : ℚ) : ℚ := 1 + (2 / 10) * t

/-- `scaled_w = int(w * scale)` / `scaled_h = int(h * scale)` (src lines
19-20). -/
def scaledDim (d : Nat) (t : ℚ) : Int := pyInt ((d : ℚ) * scaleAt t)

/-- `x = (scaled_w - w) // 2` and `y = (scaled_h - h) // 2` (src lines 27-28);
Python `//` on ints is floor division, `Int.fdiv`. -/
def cropOffset (scaled : Int) (d : Nat) : Int := Int.fdiv (scaled - (d : Int)) 2

/-- `process_frame(t)` (src lines 16-31), the zoom transform produced by
`create_frame_processor(clip, w, h)` (src line 14).  A frame is a list of
pixel rows.  The external collaborators are parameters: `getFrame` stands for
`clip.get_frame` and `resize` for `resize_frame` (src lines 93-99, PIL — an
opaque service).  The numpy crop `resized[y:y+h, x:x+w]` is the row slice
followed by the column slice of each remaining row. -/
def process_frame {α : Type} (resize : List (List α) → Int × Int → List (List α))
    (getFrame : ℚ → List (List α)) (w h : Nat) (t : ℚ) : List (List α) :=
  let scaled_w : Int := scaledDim w t
  let scaled_h : Int := scaledDim h t
  let frame := getFrame t
  let resized := resize frame (scaled_w, scaled_h)
  let x : Int := cropOffset scaled_w w
  let y : Int := cropOffset scaled_h h
  (pySliceList resized y (y + (h : Int))).map fun row => pySliceList row x (x + (w : Int))

/-- Resource and pipeline events of `create_video_with_zoom`, in the order the
source performs them. -/
inductive Ev : Type
  | openClip (i : Nat)
  | concatEv
  | openAudio
  | subclipEv (t0 t1 : ℚ)
  | writeEv
  | closeFinal
  | closeAudio
  | closeClip (i : Nat)
deriving DecidableEq, Repr

/-- The failure kinds the spec's §7 names for one assembly iteration. -/
inductive VErr : Type
  | audioTooShort
  | encodeFailure
deriving DecidableEq, Repr

/-- `create_video_with_zoom` (src lines 34-91) as an event trace plus a
result.  The 8 clips are opened with duration `2` each (src line 51), the
concatenated sequence has duration `8 * 2 = 16` (src line 64), and the audio
is trimmed with `audio.subclip(0, final_clip.duration)` (src line 69) — never
looped or repeated.  The audio and encode services are external; per the
spec's contract for them, trimming an audio of duration `< 16` to `[0, 16)`
is the error condition `audioTooShort`, and `encodeOk = false` stands for
`write_videofile` raising.  The close calls (src lines 85-88) come after
`write_videofile` with no `try/finally`, so an exception on either failure
path propagates before any close event is emitted. -/
def create_video_with_zoom (audioDuration : ℚ) (encodeOk : Bool)
    (outName : String) : List Ev × Except VErr String :=
  let clipDuration : ℚ := 2
  let finalDuration : ℚ := 8 * clipDuration
  let openEvs := (List.range 8).map Ev.openClip
  let evs := openEvs ++ [Ev.concatEv, Ev.openAudio, Ev.subclipEv 0 finalDuration]
  if audioDuration < finalDuration then
    (evs, Except.error VErr.audioTooShort)
  else if encodeOk then
    (evs ++ [Ev.writeEv, Ev.closeFinal, Ev.closeAudio] ++ (List.range 8).map Ev.closeClip,
      Except.ok outName)
  else
    (evs ++ [Ev.writeEv], Except.error VErr.encodeFailure)

/-- A combination: a list of 8 image identifiers (identifiers abstract the
filename strings; only their order and equality matter). -/
abbrev Combo := List Nat

def insertSorted (a : Nat) : List Nat → List Nat
  | [] => [a]
  | b :: l => if a ≤ b then a :: b :: l else b :: insertSorted a l

/-- Python's `sorted` (src line 124): the ascending rearrangement of the
drawn sample, canonicalizing the combination. -/
def pySorted : List Nat → List Nat
  | [] => []
  | a :: l => insertSorted a (pySorted l)

/-- The `while len(created_videos) < videos_to_create` loop of
`create_multiple_videos` (src lines 121-148).  `draws` is the stream of
outcomes of `random.sample(image_files, 8)` (src line 124), consumed one per
iteration; an exhausted stream ends the recursion with the current state (the
fuel view of the unbounded random loop).  `encode` is the outcome of
`create_video_with_zoom` for a combination: `some path` appends the record
and marks the combination used (src lines 139-140), `none` is an exception,
caught at src line 143, and the loop `break`s. -/
def create_multiple_videos_loop (videosToCreate : Nat) (encode : Combo → Option String) :
    List (List Nat) → List Combo → List (String × Combo) →
      List (String × Combo) × List Combo
  | [], used, created => (created, used)
  | d :: rest, used, created =>
    if videosToCreate ≤ created.length then (created, used)
    else
      let selected_files := pySorted d
      if selected_files ∈ used then
        create_multiple_videos_loop videosToCreate encode rest used created
      else
        match encode selected_files with
        | some output_path =>
            create_multiple_videos_loop videosToCreate encode rest
              (selected_files :: used) (created ++ [(output_path, selected_files)])
        | none => (created, used)

/-- `create_multiple_videos` (src lines 101-150).  The directory scan (src
line 104) is an excluded collaborator, so the scanned pool `image_files` is
an input.  Returns the `(output path, combination)` records together with the
final `used_combinations` set (its insertion-ordered list). -/
def create_multiple_videos (image_files : List Nat) (min_videos : Nat)
    (draws : List (List Nat)) (encode : Combo → Option String) :
    Except String (List (String × Combo) × List Combo) :=
  let total_images := image_files.length
  let possible_combinations := calculate_possible_combinations (total_images : Int) 8
  if total_images < 8 then
    Except.error "at least 8 images are required"
  else
    let videos_to_create := min min_videos possible_combinations
    Except.ok (create_multiple_videos_loop videos_to_create encode draws [] [])

/-- A stub external resize service returning a zero frame of exactly the
requested size; instantiates `process_frame` theorems at concrete inputs. -/
def resizeStub (f : List (List Nat)) (s : Int × Int) : List (List Nat) :=
  List.replicate s.2.toNat (List.replicate s.1.toNat 0)

/-- A stub frame source: the same 2×2 frame at every `t`. -/
def frameStub (t : ℚ) : List (List Nat) := [[1, 2], [3, 4]]

/-- The nine 8-element subsets of a 9-image pool, a concrete draw stream. -/
def nineDraws : List (List Nat) :=
  [[1, 2, 3, 4, 5, 6, 7, 8], [0, 2, 3, 4, 5, 6, 7, 8], [0, 1, 3, 4, 5, 6, 7, 8],
   [0, 1, 2, 4, 5, 6, 7, 8], [0, 1, 2, 3, 5, 6, 7, 8], [0, 1, 2, 3, 4, 6, 7, 8],
   [0, 1, 2, 3, 4, 5, 7, 8], [0, 1, 2, 3, 4, 5, 6, 8], [0, 1, 2, 3, 4, 5, 6, 7]]

theorem pyFactorial_of_nonneg {n : Int} (h : 0 ≤ n) :
    pyFactorial n = some (Nat.factorial n.toNat) := by
  simp [pyFactorial, not_lt.mpr h]

theorem pyFactorial_of_neg {n : Int} (h : n < 0) : pyFactorial n = none := by
  simp [pyFactorial, h]

theorem calc_eq_of_le {n : Int} (h : 8 ≤ n) :
    calculate_possible_combinations n 8 =
      Nat.factorial n.toNat / (Nat.factorial 8 * Nat.factorial (n.toNat - 8)) := by
  have h0 : (0 : Int) ≤ n := le_trans (by norm_num) h
  have h8 : (0 : Int) ≤ n - 8 := by omega
  have ht : (n - 8).toNat = n.toNat - 8 := by omega
  rw [calculate_possible_combinations, pyFactorial_of_nonneg h0,
    pyFactorial_of_nonneg (by norm_num : (0:Int) ≤ 8), pyFactorial_of_nonneg h8, ht]
  rfl

theorem calc_eq_zero_of_lt {n : Int} (h : n < 8) :
    calculate_possible_combinations n 8 = 0 := by
  rw [calculate_possible_combinations, pyFactorial_of_neg (by omega : n - 8 < 0)]
  cases pyFactorial n <;> simp

/-- C3: `combinations_count(n, 8) = combinations_count(n, n-8)` for every
integer `n`, and the count is `0` whenever `n < 8`. -/
theorem C3_symmetry_and_zero_below_eight (n : Int) :
    calculate_possible_combinations n 8 = calculate_possible_combinations n (n - 8) ∧
      (n < 8 → calculate_possible_combinations n 8 = 0) := by
  constructor
  · by_cases h : 8 ≤ n
    · have h0 : (0 : Int) ≤ n := le_trans (by norm_num) h
      have h8 : (0 : Int) ≤ n - 8 := by omega
      have hnn : n - (n - 8) = 8 := by ring
      have ht : (n - 8).toNat = n.toNat - 8 := by omega
      have hR : calculate_possible_combinations n (n - 8) =
          Nat.factorial n.toNat / (Nat.factorial (n.toNat - 8) * Nat.factorial 8) := by
        rw [calculate_possible_combinations, pyFactorial_of_nonneg h0,
          pyFactorial_of_nonneg h8, hnn,
          pyFactorial_of_nonneg (by norm_num : (0:Int) ≤ 8), ht]
        rfl
      rw [calc_eq_of_le h, hR, Nat.mul_comm]
    · push_neg at h
      rw [calc_eq_zero_of_lt h, calculate_possible_combinations,
        pyFactorial_of_neg (by omega : n - 8 < 0)]
      cases pyFactorial n <;> cases pyFactorial (n - (n - 8)) <;> simp
  · exact fun h => calc_eq_zero_of_lt h

/-- C9 (counterexample): contrary to the claim that raw factorials of large
`n` are never taken, the source evaluates `math.factorial(1000)` itself when
computing `C(1000, 8)`. -/
theorem C9_raw_factorial_of_large_n :
    calculate_possible_combinations_factorial_args 1000 8 = [1000, 8, 992] := by
  decide

/-- C9 (amended): the count is computed with raw factorials (no multiplicative
formula and no overflow guard), but Python integers are unbounded, so for
every `n ≥ 8` the value still equals the exact binomial coefficient
`C(n, 8)`. -/
theorem C9_exact_binomial (n : Int) (h : 8 ≤ n) :
    calculate_possible_combinations n 8 = Nat.choose n.toNat 8 := by
  have hn : 8 ≤ n.toNat := by omega
  rw [calc_eq_of_le h, Nat.choose_eq_factorial_div_factorial hn]

theorem C9_exact_binomial_witness :
    ((8 : Int) ≤ 12) ∧ calculate_possible_combinations 12 8 = Nat.choose (Int.toNat 12) 8 :=
  ⟨by norm_num, C9_exact_binomial 12 (by norm_num)⟩

theorem scaledDim_zero (d : Nat) : scaledDim d 0 = (d : Int) := by
  have h : (d : ℚ) * scaleAt 0 = (d : ℚ) := by
    unfold scaleAt; ring
  rw [scaledDim, h, pyInt, if_pos (by positivity)]
  exact Int.floor_natCast d

theorem cropOffset_self (d : Nat) : cropOffset (d : Int) d = 0 := by
  unfold cropOffset
  rw [sub_self]
  rfl

theorem pySliceList_full {α : Type} (l : List α) :
    pySliceList l 0 (l.length : Int) = l := by
  simp only [pySliceList]
  rw [if_neg (by omega), if_neg (by omega), min_self,
    min_eq_left (by exact_mod_cast Int.ofNat_nonneg l.length)]
  simp

theorem pySliceList_length {α : Type} (l : List α) (a b : Int)
    (ha : 0 ≤ a) (hab : a ≤ b) (hb : b ≤ (l.length : Int)) :
    (pySliceList l a b).length = (b - a).toNat := by
  simp only [pySliceList]
  rw [if_neg (by omega), if_neg (by omega),
    min_eq_left (le_trans hab hb), min_eq_left hb]
  simp only [List.length_drop, List.length_take]
  omega

theorem mem_of_mem_pySliceList {α : Type} {l : List α} {a b : Int} {x : α}
    (h : x ∈ pySliceList l a b) : x ∈ l := by
  simp only [pySliceList] at h
  exact List.mem_of_mem_take (List.mem_of_mem_drop h)

theorem le_scaledDim (d : Nat) (t : ℚ) (ht : 0 ≤ t) : (d : Int) ≤ scaledDim d t := by
  have hs : (1 : ℚ) ≤ scaleAt t := by
    unfold scaleAt; nlinarith
  have hd : (0 : ℚ) ≤ (d : ℚ) := by positivity
  have hq : (d : ℚ) ≤ (d : ℚ) * scaleAt t := by nlinarith
  rw [scaledDim, pyInt, if_pos (le_trans hd hq)]
  exact Int.le_floor.mpr (by push_cast; linarith)

theorem cropOffset_nonneg {s : Int} {d : Nat} (h : (d : Int) ≤ s) :
    0 ≤ cropOffset s d := by
  unfold cropOffset
  rw [Int.fdiv_eq_ediv _ (by norm_num)]
  omega

theorem cropOffset_add_le {s : Int} {d : Nat} (h : (d : Int) ≤ s) :
    cropOffset s d + (d : Int) ≤ s := by
  unfold cropOffset
  rw [Int.fdiv_eq_ediv _ (by norm_num)]
  omega

/-- C4: at `t = 0` the zoom transform is the identity: the scale is `1`, the
resize target is the source's own size — a no-op for the external resize
service, as the spec's contract for it states — the crop offsets are `0`, and
the output frame equals the source frame pixel-for-pixel. -/
theorem C4_zoom_identity_at_zero {α : Type}
    (resize : List (List α) → Int × Int → List (List α))
    (getFrame : ℚ → List (List α)) (w h : Nat)
    (hrows : (getFrame 0).length = h)
    (hcols : ∀ row ∈ getFrame 0, row.length = w)
    (hres : resize (getFrame 0) ((w : Int), (h : Int)) = getFrame 0) :
    process_frame resize getFrame w h 0 = getFrame 0 := by
  simp only [process_frame, scaledDim_zero, cropOffset_self, hres, zero_add]
  have houter : pySliceList (getFrame 0) 0 ((h : Int)) = getFrame 0 := by
    rw [← hrows]
    exact_mod_cast pySliceList_full (getFrame 0)
  rw [houter]
  have hmap : ∀ row ∈ getFrame 0,
      pySliceList row 0 ((w : Int)) = row := by
    intro row hrow
    rw [← hcols row hrow]
    exact_mod_cast pySliceList_full row
  calc (getFrame 0).map (fun row => pySliceList row 0 ((w : Int)))
      = (getFrame 0).map id := List.map_congr_left hmap
    _ = getFrame 0 := List.map_id _

/-- C5: for a source of width `w ≥ 1`, height `h ≥ 1` and any `t ∈ [0, 2)`,
the scaled dimensions are at least `w` and `h`, the crop offsets are
non-negative, the crop window lies inside the resized frame, and — provided
the external resize service returns a frame of exactly the requested size —
the output frame is exactly `h` rows of `w` pixels. -/
theorem C5_output_dims {α : Type}
    (resize : List (List α) → Int × Int → List (List α))
    (getFrame : ℚ → List (List α)) (w h : Nat) (t : ℚ)
    (hw : 1 ≤ w) (hh : 1 ≤ h) (ht0 : 0 ≤ t) (ht2 : t < 2)
    (hlen : (resize (getFrame t) (scaledDim w t, scaledDim h t)).length
        = (scaledDim h t).toNat)
    (hrow : ∀ row ∈ resize (getFrame t) (scaledDim w t, scaledDim h t),
        row.length = (scaledDim w t).toNat) :
    ((w : Int) ≤ scaledDim w t ∧ (h : Int) ≤ scaledDim h t) ∧
      (0 ≤ cropOffset (scaledDim w t) w ∧ 0 ≤ cropOffset (scaledDim h t) h) ∧
      (cropOffset (scaledDim w t) w + (w : Int) ≤ scaledDim w t ∧
        cropOffset (scaledDim h t) h + (h : Int) ≤ scaledDim h t) ∧
      (process_frame resize getFrame w h t).length = h ∧
      ∀ row ∈ process_frame resize getFrame w h t, row.length = w := by
  have hsw : (w : Int) ≤ scaledDim w t := le_scaledDim w t ht0
  have hsh : (h : Int) ≤ scaledDim h t := le_scaledDim h t ht0
  have hx0 : 0 ≤ cropOffset (scaledDim w t) w := cropOffset_nonneg hsw
  have hy0 : 0 ≤ cropOffset (scaledDim h t) h := cropOffset_nonneg hsh
  have hxw : cropOffset (scaledDim w t) w + (w : Int) ≤ scaledDim w t :=
    cropOffset_add_le hsw
  have hyh : cropOffset (scaledDim h t) h + (h : Int) ≤ scaledDim h t :=
    cropOffset_add_le hsh
  refine ⟨⟨hsw, hsh⟩, ⟨hx0, hy0⟩, ⟨hxw, hyh⟩, ?_, ?_⟩
  · simp only [process_frame, List.length_map]
    rw [pySliceList_length _ _ _ hy0 (by omega) (by rw [hlen]; omega)]
    omega
  · intro row hmem
    simp only [process_frame, List.mem_map] at hmem
    obtain ⟨row0, hrow0, hroweq⟩ := hmem
    have hrow0mem := mem_of_mem_pySliceList hrow0
    have hlen0 : (row0.length : Int) = scaledDim w t := by
      rw [hrow row0 hrow0mem]; omega
    rw [← hroweq,
      pySliceList_length _ _ _ hx0 (by omega) (by rw [hlen0]; exact hxw)]
    omega

/-- C6 (the code violates the claim): when encoding raises, no acquired
resource is released — the trace of `create_video_with_zoom` at an encode
failure holds the eight open events but not a single close event, because the
close calls only run after a successful `write_videofile`. -/
theorem C6_no_release_on_encode_failure :
    (Ev.openClip 0 ∈ (create_video_with_zoom 16 false "out").1 ∧
      Ev.openAudio ∈ (create_video_with_zoom 16 false "out").1) ∧
    (∀ i, Ev.closeClip i ∉ (create_video_with_zoom 16 false "out").1) ∧
    Ev.closeAudio ∉ (create_video_with_zoom 16 false "out").1 ∧
    Ev.closeFinal ∉ (create_video_with_zoom 16 false "out").1 ∧
    (create_video_with_zoom 16 false "out").2 = Except.error VErr.encodeFailure := by
  have hev : (create_video_with_zoom 16 false "out").1 =
      (List.range 8).map Ev.openClip ++
        [Ev.concatEv, Ev.openAudio, Ev.subclipEv 0 (8 * 2)] ++ [Ev.writeEv] := by
    simp only [create_video_with_zoom]
    norm_num
  have hres : (create_video_with_zoom 16 false "out").2 =
      Except.error VErr.encodeFailure := by
    simp only [create_video_with_zoom]
    norm_num
  refine ⟨⟨?_, ?_⟩, ?_, ?_, ?_, hres⟩ <;> rw [hev] <;> simp [List.range_succ]

/-- C8: whenever the audio source is strictly shorter than the total visual
duration `8 * 2 = 16`, the assembly pipeline requests the trim `[0, 16)` —
it never loops or repeats the audio — the iteration fails with
`audioTooShort`, and no output file is produced (the write step is never
reached and no path is returned). -/
theorem C8_audio_too_short (audioDuration : ℚ) (encodeOk : Bool) (outName : String)
    (hshort : audioDuration < 16) :
    (create_video_with_zoom audioDuration encodeOk outName).2 =
        Except.error VErr.audioTooShort ∧
      Ev.subclipEv 0 16 ∈ (create_video_with_zoom audioDuration encodeOk outName).1 ∧
      Ev.writeEv ∉ (create_video_with_zoom audioDuration encodeOk outName).1 ∧
      ∀ p, (create_video_with_zoom audioDuration encodeOk outName).2 ≠ Except.ok p := by
  have h16 : (8 : ℚ) * 2 = 16 := by norm_num
  have hvis : create_video_with_zoom audioDuration encodeOk outName =
      ((List.range 8).map Ev.openClip ++
          [Ev.concatEv, Ev.openAudio, Ev.subclipEv 0 16],
        Except.error VErr.audioTooShort) := by
    simp only [create_video_with_zoom, h16]
    rw [if_pos hshort]
  rw [hvis]
  refine ⟨rfl, by simp, ?_, fun p h => Except.noConfusion h⟩
  simp [List.range_succ]

theorem C8_audio_too_short_witness :
    ((10 : ℚ) < 16) ∧
      ((create_video_with_zoom 10 true "out").2 = Except.error VErr.audioTooShort ∧
        Ev.subclipEv 0 16 ∈ (create_video_with_zoom 10 true "out").1 ∧
        Ev.writeEv ∉ (create_video_with_zoom 10 true "out").1 ∧
        ∀ p, (create_video_with_zoom 10 true "out").2 ≠ Except.ok p) :=
  ⟨by norm_num, C8_audio_too_short 10 true "out" (by norm_num)⟩

theorem loop_records_nodup (videosToCreate : Nat) (encode : Combo → Option String)
    (draws : List (List Nat)) :
    ∀ (used : List Combo) (created : List (String × Combo)),
      (∀ c ∈ created.map Prod.snd, c ∈ used) →
      (created.map Prod.snd).Nodup →
      ((create_multiple_videos_loop videosToCreate encode draws used created).1.map
        Prod.snd).Nodup := by
  induction draws with
  | nil =>
    intro used created _ hnd
    simpa [create_multiple_videos_loop] using hnd
  | cons d rest ih =>
    intro used created hsub hnd
    rw [create_multiple_videos_loop]
    by_cases hcap : videosToCreate ≤ created.length
    · simpa [hcap] using hnd
    · rw [if_neg hcap]
      by_cases hmem : pySorted d ∈ used
      · simpa [hmem] using ih used created hsub hnd
      · rw [if_neg hmem]
        cases henc : encode (pySorted d) with
        | none => simpa using hnd
        | some p =>
          have hs_not : pySorted d ∉ created.map Prod.snd := fun hc => hmem (hsub _ hc)
          apply ih
          · intro c hc
            rw [List.map_append] at hc
            rcases List.mem_append.mp hc with h1 | h2
            · exact List.mem_cons_of_mem _ (hsub c h1)
            · simp only [List.map_cons, List.map_nil, List.mem_singleton] at h2
              simp [h2]
          · rw [List.map_append]
            simp [List.nodup_append, hnd, hs_not]

theorem loop_used_eq (videosToCreate : Nat) (encode : Combo → Option String)
    (draws : List (List Nat)) :
    ∀ (used : List Combo) (created : List (String × Combo)),
      used = (created.map Prod.snd).reverse →
      (create_multiple_videos_loop videosToCreate encode draws used created).2 =
        ((create_multiple_videos_loop videosToCreate encode draws used created).1.map
          Prod.snd).reverse := by
  induction draws with
  | nil =>
    intro used created h
    simpa [create_multiple_videos_loop] using h
  | cons d rest ih =>
    intro used created h
    rw [create_multiple_videos_loop]
    by_cases hcap : videosToCreate ≤ created.length
    · simpa [hcap] using h
    · rw [if_neg hcap]
      by_cases hmem : pySorted d ∈ used
      · simpa [hmem] using ih used created h
      · rw [if_neg hmem]
        cases henc : encode (pySorted d) with
        | none => simpa using h
        | some p =>
          apply ih
          rw [List.map_append, List.reverse_append, h]
          simp

theorem loop_length_eq (videosToCreate : Nat) (encode : Combo → Option String)
    (draws : List (List Nat)) :
    ∀ (used : List Combo) (created : List (String × Combo)),
      (draws.map pySorted).Nodup →
      (∀ d ∈ draws, pySorted d ∉ used) →
      (∀ c, (encode c).isSome) →
      (create_multiple_videos_loop videosToCreate encode draws used created).1.length =
        max created.length (min videosToCreate (created.length + draws.length)) := by
  induction draws with
  | nil =>
    intro used created _ _ _
    simp only [create_multiple_videos_loop, List.length_nil]
    omega
  | cons d rest ih =>
    intro used created hnd hfresh henc
    rw [create_multiple_videos_loop]
    have hnd' : (rest.map pySorted).Nodup := (List.nodup_cons.mp (by simpa using hnd)).2
    have hdnotin : pySorted d ∉ rest.map pySorted :=
      (List.nodup_cons.mp (by simpa using hnd)).1
    by_cases hcap : videosToCreate ≤ created.length
    · rw [if_pos hcap]
      simp only [List.length_cons]
      omega
    · rw [if_neg hcap]
      have hdfresh : pySorted d ∉ used := hfresh d (List.mem_cons_self d rest)
      rw [if_neg hdfresh]
      obtain ⟨p, hp⟩ := Option.isSome_iff_exists.mp (henc (pySorted d))
      rw [hp]
      have hfresh' : ∀ e ∈ rest, pySorted e ∉ pySorted d :: used := by
        intro e he
        simp only [List.mem_cons]
        push_neg
        refine ⟨fun heq => hdnotin (heq ▸ List.mem_map_of_mem pySorted he), ?_⟩
        exact hfresh e (List.mem_cons_of_mem d he)
      have := ih (pySorted d :: used) (created ++ [(p, pySorted d)]) hnd' hfresh' henc
      rw [this]
      simp only [List.length_append, List.length_cons, List.length_nil]
      omega

/-- C1: after a batch run over a pool of at least 8 images, the canonical
combinations of the produced output records are pairwise distinct — a drawn
combination already in the used set is discarded before any video is made. -/
theorem C1_no_duplicate_combinations (image_files : List Nat) (min_videos : Nat)
    (draws : List (List Nat)) (encode : Combo → Option String)
    (records : List (String × Combo)) (used : List Combo)
    (h8 : 8 ≤ image_files.length)
    (hok : create_multiple_videos image_files min_videos draws encode =
      Except.ok (records, used)) :
    (records.map Prod.snd).Nodup := by
  simp only [create_multiple_videos] at hok
  rw [if_neg (Nat.not_lt.mpr h8)] at hok
  injection hok with h2
  have hr : (create_multiple_videos_loop
      (min min_videos (calculate_possible_combinations (image_files.length : Int) 8))
      encode draws [] []).1 = records := by rw [h2]
  rw [← hr]
  exact loop_records_nodup _ encode draws [] [] (by simp) List.nodup_nil

theorem C1_no_duplicate_combinations_witness :
    (8 ≤ ([0, 1, 2, 3, 4, 5, 6, 7] : List Nat).length) ∧
      ((([("p", [0, 1, 2, 3, 4, 5, 6, 7])] : List (String × Combo)).map Prod.snd).Nodup) :=
  ⟨by decide,
    C1_no_duplicate_combinations [0, 1, 2, 3, 4, 5, 6, 7] 1 [[0, 1, 2, 3, 4, 5, 6, 7]]
      (fun _ => some "p") [("p", [0, 1, 2, 3, 4, 5, 6, 7])] [[0, 1, 2, 3, 4, 5, 6, 7]]
      (by decide) rfl⟩

/-- C10: the used-combinations set and the output records stay in one-to-one
correspondence: the used set is exactly the (reversed) list of the records'
combinations, so their sizes agree after every run, and a combination whose
iteration failed is never marked used. -/
theorem C10_used_matches_records (image_files : List Nat) (min_videos : Nat)
    (draws : List (List Nat)) (encode : Combo → Option String)
    (records : List (String × Combo)) (used : List Combo)
    (hok : create_multiple_videos image_files min_videos draws encode =
      Except.ok (records, used)) :
    used = (records.map Prod.snd).reverse ∧ used.length = records.length := by
  simp only [create_multiple_videos] at hok
  by_cases hlt : image_files.length < 8
  · rw [if_pos hlt] at hok
    exact absurd hok (by simp)
  · rw [if_neg hlt] at hok
    injection hok with h2
    have hr : (create_multiple_videos_loop
        (min min_videos (calculate_possible_combinations (image_files.length : Int) 8))
        encode draws [] []).1 = records := by rw [h2]
    have hu : (create_multiple_videos_loop
        (min min_videos (calculate_possible_combinations (image_files.length : Int) 8))
        encode draws [] []).2 = used := by rw [h2]
    have := loop_used_eq
      (min min_videos (calculate_possible_combinations (image_files.length : Int) 8))
      encode draws [] [] (by simp)
    rw [hr, hu] at this
    refine ⟨this, ?_⟩
    rw [this]
    simp

theorem C10_used_matches_records_witness :
    ([[0, 1, 2, 3, 4, 5, 6, 7]] =
        ((([("p", [0, 1, 2, 3, 4, 5, 6, 7])] : List (String × Combo)).map
          Prod.snd).reverse) ∧
      ([[0, 1, 2, 3, 4, 5, 6, 7]] : List Combo).length =
        ([("p", [0, 1, 2, 3, 4, 5, 6, 7])] : List (String × Combo)).length) :=
  C10_used_matches_records [0, 1, 2, 3, 4, 5, 6, 7] 1 [[7, 6, 5, 4, 3, 2, 1, 0]]
    (fun _ => some "p") [("p", [0, 1, 2, 3, 4, 5, 6, 7])] [[0, 1, 2, 3, 4, 5, 6, 7]] rfl

/-- C7: when an iteration of the batch loop fails (its `create_video_with_zoom`
call raises), the exception is caught, the batch stops at once — no retry, the
remaining draw stream is irrelevant — and the records produced by the earlier
iterations are returned together with the used set as they stand. -/
theorem C7_failure_aborts_batch (videosToCreate : Nat) (encode : Combo → Option String)
    (d : List Nat) (rest : List (List Nat)) (used : List Combo)
    (created : List (String × Combo))
    (hroom : created.length < videosToCreate)
    (hfresh : pySorted d ∉ used)
    (hfail : encode (pySorted d) = none) :
    create_multiple_videos_loop videosToCreate encode (d :: rest) used created =
      (created, used) := by
  rw [create_multiple_videos_loop, if_neg (Nat.not_le.mpr hroom), if_neg hfresh, hfail]

theorem C7_failure_aborts_batch_witness :
    (([("q", [0, 1, 2, 3, 4, 5, 6, 7])] : List (String × Combo)).length < 2) ∧
      (pySorted [8, 9, 10, 11, 12, 13, 14, 15] ∉ ([[0, 1, 2, 3, 4, 5, 6, 7]] : List Combo)) ∧
      ((fun _ : Combo => (none : Option String)) (pySorted [8, 9, 10, 11, 12, 13, 14, 15])
          = none) ∧
      create_multiple_videos_loop 2 (fun _ => none)
          [[8, 9, 10, 11, 12, 13, 14, 15], [0, 1, 2, 3, 4, 5, 6, 8]]
          [[0, 1, 2, 3, 4, 5, 6, 7]] [("q", [0, 1, 2, 3, 4, 5, 6, 7])] =
        ([("q", [0, 1, 2, 3, 4, 5, 6, 7])], [[0, 1, 2, 3, 4, 5, 6, 7]]) :=
  ⟨by decide, by decide, rfl,
    C7_failure_aborts_batch 2 (fun _ => none) [8, 9, 10, 11, 12, 13, 14, 15]
      [[0, 1, 2, 3, 4, 5, 6, 8]] [[0, 1, 2, 3, 4, 5, 6, 7]]
      [("q", [0, 1, 2, 3, 4, 5, 6, 7])] (by decide) (by decide) rfl⟩

/-- C2: with no per-iteration failure (and a draw stream holding enough
pairwise-distinct samples for the unbounded random retry to be modelled),
the batch controller produces exactly
`min(requested_count, C(|pool|, 8))` output records. -/
theorem C2_batch_count (image_files : List Nat) (min_videos : Nat)
    (draws : List (List Nat)) (encode : Combo → Option String)
    (records : List (String × Combo)) (used : List Combo)
    (h8 : 8 ≤ image_files.length)
    (hnd : (draws.map pySorted).Nodup)
    (henc : ∀ c, (encode c).isSome)
    (henough : min min_videos
        (calculate_possible_combinations (image_files.length : Int) 8) ≤ draws.length)
    (hok : create_multiple_videos image_files min_videos draws encode =
      Except.ok (records, used)) :
    records.length =
      min min_videos (calculate_possible_combinations (image_files.length : Int) 8) := by
  simp only [create_multiple_videos] at hok
  rw [if_neg (Nat.not_lt.mpr h8)] at hok
  injection hok with h2
  have hr : (create_multiple_videos_loop
      (min min_videos (calculate_possible_combinations (image_files.length : Int) 8))
      encode draws [] []).1 = records := by rw [h2]
  have := loop_length_eq
    (min min_videos (calculate_possible_combinations (image_files.length : Int) 8))
    encode draws [] [] hnd (by simp) henc
  rw [hr] at this
  rw [this]
  simp only [List.length_nil, Nat.zero_add]
  omega

theorem C2_batch_count_witness :
    (8 ≤ ([0, 1, 2, 3, 4, 5, 6, 7, 8] : List Nat).length) ∧
      ((nineDraws.map pySorted).Nodup) ∧
      (∀ c : Combo, ((fun _ : Combo => some "p") c).isSome) ∧
      (min 10 (calculate_possible_combinations
          (([0, 1, 2, 3, 4, 5, 6, 7, 8] : List Nat).length : Int) 8) ≤ nineDraws.length) ∧
      (nineDraws.map (fun d => ("p", d))).length =
        min 10 (calculate_possible_combinations
          (([0, 1, 2, 3, 4, 5, 6, 7, 8] : List Nat).length : Int) 8) :=
  ⟨by decide, by decide, fun c => rfl, by decide,
    C2_batch_count [0, 1, 2, 3, 4, 5, 6, 7, 8] 10 nineDraws (fun _ => some "p")
      (nineDraws.map (fun d => ("p", d))) nineDraws.reverse
      (by decide) (by decide) (fun c => rfl) (by decide) rfl⟩

theorem C4_zoom_identity_at_zero_witness :
    ((frameStub 0).length = 2 ∧ (∀ row ∈ frameStub 0, row.length = 2) ∧
      (fun (f : List (List Nat)) (_ : Int × Int) => f) (frameStub 0) ((2 : Int), (2 : Int))
        = frameStub 0) ∧
      process_frame (fun (f : List (List Nat)) (_ : Int × Int) => f) frameStub 2 2 0
        = frameStub 0 :=
  ⟨⟨rfl, by decide, rfl⟩,
    C4_zoom_identity_at_zero (fun f _ => f) frameStub 2 2 rfl (by decide) rfl⟩

theorem scaledDim_ten_one : scaledDim 10 1 = 12 := by
  have h : ((10 : Nat) : ℚ) * scaleAt 1 = ((12 : Int) : ℚ) := by
    norm_num [scaleAt]
  rw [scaledDim, pyInt, if_pos (by rw [h]; norm_num), h, Int.floor_intCast]

theorem C5_output_dims_witness :
    ((1 ≤ 10) ∧ ((0 : ℚ) ≤ 1) ∧ ((1 : ℚ) < 2) ∧
      (resizeStub (frameStub 1) (scaledDim 10 1, scaledDim 10 1)).length
        = (scaledDim 10 1).toNat ∧
      (∀ row ∈ resizeStub (frameStub 1) (scaledDim 10 1, scaledDim 10 1),
        row.length = (scaledDim 10 1).toNat)) ∧
    (((10 : Int) ≤ scaledDim 10 1 ∧ (10 : Int) ≤ scaledDim 10 1) ∧
      (0 ≤ cropOffset (scaledDim 10 1) 10 ∧ 0 ≤ cropOffset (scaledDim 10 1) 10) ∧
      (cropOffset (scaledDim 10 1) 10 + (10 : Int) ≤ scaledDim 10 1 ∧
        cropOffset (scaledDim 10 1) 10 + (10 : Int) ≤ scaledDim 10 1) ∧
      (process_frame resizeStub frameStub 10 10 1).length = 10 ∧
      ∀ row ∈ process_frame resizeStub frameStub 10 10 1, row.length = 10) :=
  ⟨⟨by norm_num, by norm_num, by norm_num, by rw [scaledDim_ten_one]; decide,
      by rw [scaledDim_ten_one]; decide⟩,
    C5_output_dims resizeStub frameStub 10 10 1 (by norm_num) (by norm_num)
      (by norm_num) (by norm_num) (by rw [scaledDim_ten_one]; decide)
      (by rw [scaledDim_ten_one]; decide)⟩

end VideoCreator
